import Mathlib

/-!
# Verification of the wishlist persistence layer and its presentation handlers

Shallow embedding of `src/utils/indexedDB.js` and the handlers of `src/App.jsx`.

The IndexedDB object store is modelled as a list of records with unique primary
keys (`id`); the browser environment's possible failures (the `onerror` event of
each request, and of the final transaction commit) are explicit boolean/fault
parameters, so every operation is a total function from the prior store state and
the run's fault pattern to the promise outcome and the next store state.
A readwrite transaction follows IndexedDB semantics: its requests act on a working
state, an unhandled request error aborts the transaction and rolls the store back
to its prior contents, and only a committed transaction publishes the new state.

A subtlety of the source reproduced here: in `getAllItems` the `try` block awaits
`initDB()` but then returns the inner promise *without* awaiting it
(`return new Promise(...)`, not `return await ...`).  In JavaScript the rejection
of a promise returned un-awaited from inside a `try` block is not intercepted by
that block's `catch`; so the catch (log, `return []`) fires only for the open
failure, while a failing `getAll` request rejects the promise that the caller of
`getAllItems` receives.
-/

set_option autoImplicit false

namespace WishlistApp

/-- The record shape stored in the object store and handled by the app:
`{ id, name, link, price, bought }` (`id` is the primary key). -/
structure WishlistItem where
  id : Int
  name : String
  link : String
  price : String
  bought : Bool
  deriving DecidableEq, Repr

/-- IndexedDB `store.put(item)`: upsert by the primary key `id`.  If a record with
the same key already exists it is overwritten, otherwise the record is added. -/
def putItem (s : List WishlistItem) (a : WishlistItem) : List WishlistItem :=
  if s.any (fun x => x.id == a.id) then
    s.map (fun x => if x.id == a.id then a else x)
  else
    s ++ [a]

/-- `initDB()`: resolves with a handle when the open request succeeds, rejects with
`Failed to open IndexedDB` on `request.onerror`.  `openOk` is the environment flag
for whether the browser's open request succeeds. -/
def initDB (openOk : Bool) : Except String Unit :=
  if openOk then Except.ok () else Except.error "Failed to open IndexedDB"

/-- `getAllItems()`.  `readOk` is the environment flag for the `getAll` request on
the readonly transaction.  An `initDB` rejection is awaited inside the `try`, so it
is caught (`console.error`, `return []`); the inner promise is returned without
`await`, so a `getAll` failure rejects the promise handed to the caller and the
catch never sees it. -/
def getAllItems (openOk readOk : Bool) (store : List WishlistItem) :
    Except String (List WishlistItem) :=
  match initDB openOk with
  | Except.error _ => Except.ok []
  | Except.ok _ =>
      if readOk then Except.ok store
      else Except.error "Failed to get items from IndexedDB"

/-- Which browser-level failure, if any, a run of `saveAllItems` encounters: the
open request, the `clear` request, the `put` request with 0-based index `n`
(no failure occurs when `n` is past the end of the input), the final transaction
commit, or no failure at all. -/
inductive SaveFault where
  | openFail
  | clearFail
  | putFail (n : Nat)
  | commitFail
  | noFault
  deriving DecidableEq, Repr

/-- Run the `store.put` requests of `saveAllItems` in order against the
transaction's working state `shadow`; the request whose 0-based index is `failIdx`
raises `Failed to add item`. -/
def runPuts (shadow : List WishlistItem) (items : List WishlistItem)
    (failIdx : Option Nat) : Except String (List WishlistItem) :=
  match items, failIdx with
  | [], _ => Except.ok shadow
  | _ :: _, some 0 => Except.error "Failed to add item"
  | a :: rest, some (n + 1) => runPuts (putItem shadow a) rest (some n)
  | a :: rest, none => runPuts (putItem shadow a) rest none

/-- `saveAllItems(items)`: one readwrite transaction that clears the store and then
`put`s every input item; `clearRequest.onerror` and each `addRequest.onerror`
reject the returned promise (and, the error events being unhandled, abort the
transaction, rolling the store back), `transaction.onerror` rejects with
`Transaction failed`, and `transaction.oncomplete` resolves, committing the
working state.  An `initDB` failure is rethrown by the catch.  Returns the promise
outcome together with the store contents after the run. -/
def saveAllItems (fault : SaveFault) (store items : List WishlistItem) :
    Except String Unit × List WishlistItem :=
  match fault with
  | SaveFault.openFail => (Except.error "Failed to open IndexedDB", store)
  | SaveFault.clearFail => (Except.error "Failed to clear IndexedDB", store)
  | SaveFault.commitFail => (Except.error "Transaction failed", store)
  | SaveFault.putFail n =>
      match runPuts [] items (some n) with
      | Except.error e => (Except.error e, store)
      | Except.ok s' => (Except.ok (), s')
  | SaveFault.noFault =>
      match runPuts [] items none with
      | Except.error e => (Except.error e, store)
      | Except.ok s' => (Except.ok (), s')

/-- `deleteItem(id)`: a readwrite transaction issuing `store.delete(id)`.
IndexedDB `delete` succeeds also when the key is absent — `delOk` is the
environment flag for the delete request itself, not a presence check.  Open and
delete failures both reject the promise the caller receives (the catch
rethrows). -/
def deleteItem (openOk delOk : Bool) (store : List WishlistItem) (id : Int) :
    Except String Unit × List WishlistItem :=
  match initDB openOk with
  | Except.error e => (Except.error e, store)
  | Except.ok _ =>
      if delOk then (Except.ok (), store.filter (fun x => !(x.id == id)))
      else (Except.error "Failed to delete item from IndexedDB", store)

/-- JavaScript `String.prototype.trim()`: remove leading and trailing whitespace.
Modelled over the character list (Lean's built-in `String.trim` is extensionally
the same on these inputs but does not reduce, being defined by well-founded
recursion on byte positions). -/
def trimChars (s : String) : String :=
  String.mk (((s.toList.dropWhile Char.isWhitespace).reverse.dropWhile
    Char.isWhitespace).reverse)

/-- The three text fields of the add form / edit form (`formData` / `editData`). -/
structure FormData where
  name : String
  link : String
  price : String
  deriving DecidableEq, Repr

/-- `handleAddItem` (after `preventDefault`): when all three trimmed fields are
non-empty, append a new item with `id = Date.now()` (the parameter `now`), the
trimmed field values and `bought = false`, and reset the form; otherwise leave
everything unchanged. -/
def handleAddItem (now : Int) (form : FormData) (items : List WishlistItem) :
    List WishlistItem × FormData :=
  if trimChars form.name ≠ "" ∧ trimChars form.link ≠ "" ∧ trimChars form.price ≠ "" then
    (items ++ [⟨now, trimChars form.name, trimChars form.link,
      trimChars form.price, false⟩],
     ⟨"", "", ""⟩)
  else (items, form)

/-- `handleSaveEdit(id)`: when all three trimmed edit fields are non-empty, map
over the list, replacing `name`/`link`/`price` of every item whose `id` matches
(the object spread keeps `id` and `bought`); otherwise no change.  (The
`setEditingId`/`setEditData` resets do not touch the item list.) -/
def handleSaveEdit (ed : FormData) (id : Int) (items : List WishlistItem) :
    List WishlistItem :=
  if trimChars ed.name ≠ "" ∧ trimChars ed.link ≠ "" ∧ trimChars ed.price ≠ "" then
    items.map (fun item =>
      if item.id == id then
        ⟨item.id, trimChars ed.name, trimChars ed.link, trimChars ed.price,
          item.bought⟩
      else item)
  else items

/-- `handleDeleteItem(id)`: await the DB delete; on success filter the item out of
the in-memory list, on failure log and still filter it out ("Still update UI even
if DB operation fails").  Returns (new in-memory list, new store contents). -/
def handleDeleteItem (openOk delOk : Bool) (items store : List WishlistItem)
    (id : Int) : List WishlistItem × List WishlistItem :=
  match deleteItem openOk delOk store id with
  | (Except.ok _, store') => (items.filter (fun x => !(x.id == id)), store')
  | (Except.error _, store') => (items.filter (fun x => !(x.id == id)), store')

/-- What `localStorage.getItem('wishlistItems')` followed by `JSON.parse` yields:
the key is absent (`getItem` returns `null`, a falsy guard), the stored string is
not valid JSON (`JSON.parse` throws), or it parses to an array of records. -/
inductive LegacySlot where
  | absent
  | malformed
  | array (xs : List WishlistItem)
  deriving DecidableEq, Repr

/-- The `loadItems` effect run on mount.  The in-memory list starts as `[]`
(`useState([])`).  Steps of the source: `loadedItems := await getAllItems()`;
`setItems(loadedItems)`; if that list is empty, read the legacy slot, and when it
parses to a non-empty array, `await saveAllItems(parsed)`, then
`setItems(parsed)`, then remove the legacy key.  Any rejection along the way is
caught (`console.error`), leaving every piece of state as it was at that point.
Returns (in-memory items, store contents, legacy slot). -/
def loadItems (openOk readOk : Bool) (fault : SaveFault)
    (store : List WishlistItem) (legacy : LegacySlot) :
    List WishlistItem × List WishlistItem × LegacySlot :=
  match getAllItems openOk readOk store with
  | Except.error _ => ([], store, legacy)
  | Except.ok loaded =>
      if loaded.length = 0 then
        match legacy with
        | LegacySlot.absent => (loaded, store, legacy)
        | LegacySlot.malformed => (loaded, store, legacy)
        | LegacySlot.array xs =>
            if xs.length > 0 then
              match saveAllItems fault store xs with
              | (Except.ok _, store') => (xs, store', LegacySlot.absent)
              | (Except.error _, store') => (loaded, store', legacy)
            else (loaded, store, legacy)
      else (loaded, store, legacy)

/-- `item.price.replace(/[^0-9.]/g, '')`: keep only the decimal digits and the
dot. -/
def stripNonNumeric (s : String) : String :=
  String.mk (s.toList.filter (fun c => c.isDigit || c == '.'))

/-- The value of a list of decimal digits, most significant first. -/
def digitsVal (cs : List Char) : Nat :=
  cs.foldl (fun n c => 10 * n + (c.toNat - '0'.toNat)) 0

/-- `parseFloat` restricted to strings of digits and dots (all that survives the
strip — in particular no sign and no exponent): parse the longest prefix of shape
`digits [ '.' digits ]`, requiring at least one digit; otherwise `none`
(`parseFloat` yields `NaN`).  Numeric values are modelled exactly as rationals. -/
def parseStripped (cs : List Char) : Option Rat :=
  let intPart := cs.takeWhile Char.isDigit
  let rest := cs.dropWhile Char.isDigit
  match rest with
  | [] => if intPart.isEmpty then none else some (digitsVal intPart)
  | c :: rest2 =>
      if c == '.' then
        let fracPart := rest2.takeWhile Char.isDigit
        if intPart.isEmpty && fracPart.isEmpty then none
        else some ((digitsVal intPart : Rat) +
          (digitsVal fracPart : Rat) / ((10 : Rat) ^ fracPart.length))
      else if intPart.isEmpty then none else some (digitsVal intPart)

/-- `parseFloat(stripped) || 0`: a `NaN` parse contributes 0. -/
def priceValue (price : String) : Rat :=
  (parseStripped (stripNonNumeric price).toList).getD 0

/-- `calculateTotal()`: filter to the not-bought items and reduce from 0, adding
each item's parsed price. -/
def calculateTotal (items : List WishlistItem) : Rat :=
  (items.filter (fun item => !item.bought)).foldl
    (fun total item => total + priceValue item.price) 0

/-- Specification-side view of the store contents: the record kept for key `k`
after the puts of `items` is the last input item carrying that id. -/
def lastWithId (items : List WishlistItem) (k : Int) : Option WishlistItem :=
  (items.filter (fun x => x.id == k)).getLast?

/-- Membership after a `put`: the new record, plus every prior record whose key
differs from the new record's key. -/
theorem mem_putItem {s : List WishlistItem} {a it : WishlistItem} :
    it ∈ putItem s a ↔ it = a ∨ (it ∈ s ∧ it.id ≠ a.id) := by
  unfold putItem
  by_cases h : s.any (fun x => x.id == a.id)
  · rw [if_pos h]
    rw [List.any_eq_true] at h
    obtain ⟨y, hy, hyid⟩ := h
    rw [beq_iff_eq] at hyid
    simp only [List.mem_map]
    constructor
    · rintro ⟨x, hx, hfx⟩
      by_cases hid : x.id = a.id
      · rw [if_pos (beq_iff_eq.mpr hid)] at hfx
        exact Or.inl hfx.symm
      · rw [if_neg (fun hc => hid (beq_iff_eq.mp hc))] at hfx
        subst hfx
        exact Or.inr ⟨hx, hid⟩
    · rintro (rfl | ⟨hmem, hne⟩)
      · exact ⟨y, hy, by rw [if_pos (beq_iff_eq.mpr hyid)]⟩
      · exact ⟨it, hmem, by rw [if_neg (fun hc => hne (beq_iff_eq.mp hc))]⟩
  · rw [if_neg h]
    rw [List.any_eq_true] at h
    push_neg at h
    simp only [List.mem_append, List.mem_singleton]
    constructor
    · rintro (hmem | rfl)
      · exact Or.inr ⟨hmem, fun hc => h it hmem (beq_iff_eq.mpr hc)⟩
      · exact Or.inl rfl
    · rintro (rfl | ⟨hmem, _⟩)
      · exact Or.inr rfl
      · exact Or.inl hmem

/-- A successful run of the put requests leaves the working state equal to folding
the puts over the initial working state. -/
theorem runPuts_ok {items : List WishlistItem} :
    ∀ {shadow : List WishlistItem} {idx : Option Nat} {s' : List WishlistItem},
      runPuts shadow items idx = Except.ok s' →
      s' = List.foldl putItem shadow items := by
  induction items with
  | nil =>
      intro shadow idx s' h
      simp only [runPuts, Except.ok.injEq] at h
      simp [h.symm]
  | cons a rest ih =>
      intro shadow idx s' h
      match idx with
      | none =>
          rw [List.foldl_cons]
          exact ih h
      | some 0 => simp [runPuts] at h
      | some (n + 1) =>
          rw [List.foldl_cons]
          exact ih h

/-- A fault-free run of the put requests succeeds with the folded working state. -/
theorem runPuts_none (items : List WishlistItem) :
    ∀ shadow, runPuts shadow items none
      = Except.ok (List.foldl putItem shadow items) := by
  induction items with
  | nil => intro shadow; rfl
  | cons a rest ih => intro shadow; rw [List.foldl_cons]; exact ih (putItem shadow a)

/-- The store contents after any run of `saveAllItems`: the folded puts over the
cleared store when the run succeeded, the prior contents otherwise. -/
theorem saveAllItems_state (fault : SaveFault) (store items : List WishlistItem) :
    (saveAllItems fault store items).2 =
      if (saveAllItems fault store items).1.isOk then List.foldl putItem [] items
      else store := by
  cases fault with
  | openFail => rfl
  | clearFail => rfl
  | commitFail => rfl
  | putFail n =>
      cases hrp : runPuts [] items (some n) with
      | error e => simp [saveAllItems, hrp, Except.isOk, Except.toBool]
      | ok s' => simp [saveAllItems, hrp, Except.isOk, Except.toBool, runPuts_ok hrp]
  | noFault =>
      simp [saveAllItems, runPuts_none, Except.isOk, Except.toBool]

/-- The keys of the store after a `put`: unchanged by an overwrite, extended by the
new key otherwise. -/
theorem ids_putItem (s : List WishlistItem) (a : WishlistItem) :
    (putItem s a).map (fun x => x.id) =
      if s.any (fun x => x.id == a.id) then s.map (fun x => x.id)
      else s.map (fun x => x.id) ++ [a.id] := by
  unfold putItem
  by_cases h : s.any (fun x => x.id == a.id)
  · rw [if_pos h, if_pos h, List.map_map]
    apply List.map_congr_left
    intro x _
    by_cases hid : x.id = a.id
    · simp [Function.comp, if_pos (beq_iff_eq.mpr hid), hid]
    · simp [Function.comp, hid]
  · rw [if_neg h, if_neg h, List.map_append]
    rfl

/-- Folding puts preserves key uniqueness of the store. -/
theorem foldl_putItem_nodup (items : List WishlistItem) :
    ∀ s : List WishlistItem, (s.map (fun x => x.id)).Nodup →
      ((List.foldl putItem s items).map (fun x => x.id)).Nodup := by
  induction items with
  | nil => intro s hs; simpa using hs
  | cons a rest ih =>
      intro s hs
      rw [List.foldl_cons]
      apply ih
      rw [ids_putItem]
      by_cases h : s.any (fun x => x.id == a.id)
      · rwa [if_pos h]
      · rw [if_neg h, List.nodup_append]
        refine ⟨hs, List.nodup_singleton _, ?_⟩
        intro b hb hb2
        rw [List.mem_singleton] at hb2
        subst hb2
        rw [List.mem_map] at hb
        obtain ⟨x, hx, hxid⟩ := hb
        exact h (List.any_eq_true.mpr ⟨x, hx, beq_iff_eq.mpr hxid⟩)

/-- Folding puts of records whose keys are fresh and pairwise distinct appends
them in order. -/
theorem foldl_putItem_eq_append (xs : List WishlistItem) :
    ∀ s : List WishlistItem,
      (∀ a ∈ xs, ∀ y ∈ s, y.id ≠ a.id) →
      (xs.map (fun x => x.id)).Nodup →
      List.foldl putItem s xs = s ++ xs := by
  induction xs with
  | nil => intro s _ _; simp
  | cons a rest ih =>
      intro s hdisj hnodup
      rw [List.foldl_cons]
      have hput : putItem s a = s ++ [a] := by
        unfold putItem
        rw [if_neg]
        intro hc
        obtain ⟨y, hy, hyid⟩ := List.any_eq_true.mp hc
        exact hdisj a (List.mem_cons_self a rest) y hy (beq_iff_eq.mp hyid)
      rw [hput]
      have hids : (rest.map (fun x => x.id)).Nodup ∧
          a.id ∉ rest.map (fun x => x.id) := by
        rw [List.map_cons, List.nodup_cons] at hnodup
        exact ⟨hnodup.2, hnodup.1⟩
      rw [ih (s ++ [a]) ?_ hids.1]
      · rw [List.append_assoc, List.singleton_append]
      · intro a' ha' y hy
        rcases List.mem_append.mp hy with hys | hya
        · exact hdisj a' (List.mem_cons_of_mem a ha') y hys
        · rw [List.mem_singleton] at hya
          subst hya
          intro hc
          exact hids.2 (hc ▸ List.mem_map_of_mem (fun x => x.id) ha')

/-- The store built by folding the puts of `items` over an empty store holds
exactly, for each key occurring in `items`, the last input record with that
key. -/
theorem foldl_putItem_mem (items : List WishlistItem) (it : WishlistItem) :
    it ∈ List.foldl putItem [] items ↔ lastWithId items it.id = some it := by
  induction items using List.reverseRecOn with
  | nil => simp [lastWithId]
  | append_singleton l a ih =>
      rw [List.foldl_append, List.foldl_cons, List.foldl_nil, mem_putItem]
      unfold lastWithId
      rw [List.filter_append]
      by_cases hid : it.id = a.id
      · have hfa : List.filter (fun x => x.id == it.id) [a] = [a] := by
          simp [List.filter, beq_iff_eq.mpr hid.symm]
        rw [hfa, List.getLast?_concat]
        simp only [Option.some.injEq]
        constructor
        · rintro (rfl | ⟨_, hne⟩)
          · rfl
          · exact absurd hid hne
        · rintro rfl
          exact Or.inl rfl
      · have hfa : List.filter (fun x => x.id == it.id) [a] = [] := by
          simp [List.filter, beq_eq_false_iff_ne.mpr (fun hc => hid hc.symm)]
        rw [hfa, List.append_nil]
        unfold lastWithId at ih
        rw [← ih]
        constructor
        · rintro (rfl | ⟨hmem, _⟩)
          · exact absurd rfl hid
          · exact hmem
        · intro hmem
          exact Or.inr ⟨hmem, hid⟩

/-- Reducing with addition from an accumulator equals the accumulator plus the sum
of the mapped prices. -/
theorem foldl_add_priceValue (l : List WishlistItem) :
    ∀ t : Rat, l.foldl (fun total item => total + priceValue item.price) t
      = t + (l.map (fun item => priceValue item.price)).sum := by
  induction l with
  | nil => intro t; simp
  | cons a rest ih =>
      intro t
      rw [List.foldl_cons, ih, List.map_cons, List.sum_cons, add_assoc]

/-- C1 (counterexample): with a populated store, a run whose `getAll` request
fails makes `getAllItems` reject with the read error instead of resolving with an
empty collection — the inner promise is returned un-awaited, so its rejection
bypasses the catch. -/
theorem getAllItems_read_failure_rejects :
    getAllItems true false [⟨1, "A", "http://x", "$10", false⟩]
      = Except.error "Failed to get items from IndexedDB" := rfl

/-- C1 (amended): `getAllItems` swallows open failures, resolving with an empty
collection (plus a logged message); a failing read, however, rejects to the
caller with the read error; and a fault-free run resolves with the store
contents. -/
theorem getAllItems_error_policy :
    (∀ (readOk : Bool) (store : List WishlistItem),
      getAllItems false readOk store = Except.ok []) ∧
    (∀ store : List WishlistItem,
      getAllItems true false store
        = Except.error "Failed to get items from IndexedDB") ∧
    (∀ store : List WishlistItem, getAllItems true true store = Except.ok store) :=
  ⟨fun _ _ => rfl, fun _ => rfl, fun _ => rfl⟩

/-- C2: replace-all is atomic.  For every prior store state, input collection and
fault pattern: if the run fails at any point, a subsequent load-all observes
exactly the prior contents; if it succeeds, it observes exactly the input
collection (the folded puts; literally the input list whenever its ids are
distinct). -/
theorem saveAllItems_atomic :
    ∀ (fault : SaveFault) (store items : List WishlistItem),
      ((saveAllItems fault store items).1.isOk = false →
        getAllItems true true (saveAllItems fault store items).2
          = Except.ok store) ∧
      ((saveAllItems fault store items).1.isOk = true →
        getAllItems true true (saveAllItems fault store items).2
          = Except.ok (List.foldl putItem [] items)) ∧
      ((items.map (fun x => x.id)).Nodup → List.foldl putItem [] items = items) := by
  intro fault store items
  refine ⟨?_, ?_, ?_⟩
  · intro h
    rw [saveAllItems_state, h]
    rfl
  · intro h
    rw [saveAllItems_state, h]
    rfl
  · intro h
    rw [foldl_putItem_eq_append items []
      (fun a _ y hy => absurd hy (List.not_mem_nil y)) h]
    rfl

/-- C2 (witness): a failing first put aborts the run, leaving the one-item prior
store observable unchanged; and an input with distinct ids is stored literally. -/
theorem saveAllItems_atomic_witness :
    getAllItems true true
        (saveAllItems (SaveFault.putFail 0) [⟨1, "A", "http://x", "$10", false⟩]
          [⟨2, "B", "http://y", "$20", false⟩]).2
      = Except.ok [⟨1, "A", "http://x", "$10", false⟩] ∧
    List.foldl putItem [] [⟨2, "B", "http://y", "$20", false⟩]
      = [⟨2, "B", "http://y", "$20", false⟩] :=
  ⟨(saveAllItems_atomic (SaveFault.putFail 0) [⟨1, "A", "http://x", "$10", false⟩]
      [⟨2, "B", "http://y", "$20", false⟩]).1 rfl,
   (saveAllItems_atomic (SaveFault.putFail 0) [⟨1, "A", "http://x", "$10", false⟩]
      [⟨2, "B", "http://y", "$20", false⟩]).2.2 (by decide)⟩

/-- C3: after a successful replace-all, load-all returns a collection with
pairwise-distinct keys whose members are exactly the last input item for each id
occurring in the input (upsert-by-key: a later item overwrites an earlier one
sharing its key). -/
theorem saveAll_getAll_roundtrip :
    ∀ (fault : SaveFault) (store items : List WishlistItem),
      (saveAllItems fault store items).1.isOk = true →
      ∃ r, getAllItems true true (saveAllItems fault store items).2 = Except.ok r
        ∧ (∀ it, it ∈ r ↔ lastWithId items it.id = some it)
        ∧ (r.map (fun x => x.id)).Nodup := by
  intro fault store items h
  refine ⟨List.foldl putItem [] items, ?_, ?_, ?_⟩
  · rw [saveAllItems_state, h]
    rfl
  · intro it
    exact foldl_putItem_mem items it
  · exact foldl_putItem_nodup items [] (by simp)

/-- C3 (witness): saving two items that share the key 1 stores exactly the later
one. -/
theorem saveAll_getAll_roundtrip_witness :
    ∃ r, getAllItems true true
        (saveAllItems SaveFault.noFault [⟨9, "Z", "http://z", "$1", true⟩]
          [⟨1, "A", "http://x", "$10", false⟩,
           ⟨1, "B", "http://y", "$20", false⟩]).2
      = Except.ok r
      ∧ (∀ it, it ∈ r ↔ lastWithId
          [⟨1, "A", "http://x", "$10", false⟩, ⟨1, "B", "http://y", "$20", false⟩]
          it.id = some it)
      ∧ (r.map (fun x => x.id)).Nodup :=
  saveAll_getAll_roundtrip SaveFault.noFault [⟨9, "Z", "http://z", "$1", true⟩]
    [⟨1, "A", "http://x", "$10", false⟩, ⟨1, "B", "http://y", "$20", false⟩] rfl

/-- C4: legacy migration on startup.  When load-all yields an empty collection and
the legacy slot parses to a non-empty list (of distinct ids) and the migration
write runs fault-free, startup ends with the store holding exactly the legacy
items, the in-memory list equal to them, and the legacy slot cleared.  And when
load-all yields a non-empty collection, no import occurs: store and legacy slot
are untouched whatever the slot holds. -/
theorem migration_imports_once :
    (∀ (openOk readOk : Bool) (store xs : List WishlistItem),
      getAllItems openOk readOk store = Except.ok [] → xs ≠ [] →
      (xs.map (fun x => x.id)).Nodup →
      loadItems openOk readOk SaveFault.noFault store (LegacySlot.array xs)
        = (xs, xs, LegacySlot.absent)) ∧
    (∀ (openOk readOk : Bool) (fault : SaveFault)
      (store loaded : List WishlistItem) (legacy : LegacySlot),
      getAllItems openOk readOk store = Except.ok loaded → loaded ≠ [] →
      loadItems openOk readOk fault store legacy = (loaded, store, legacy)) := by
  constructor
  · intro openOk readOk store xs hload hne hnodup
    have hfold : List.foldl putItem [] xs = xs := by
      rw [foldl_putItem_eq_append xs []
        (fun a _ y hy => absurd hy (List.not_mem_nil y)) hnodup]
      rfl
    simp [loadItems, hload, saveAllItems, runPuts_none, hfold,
      List.length_pos.mpr hne]
  · intro openOk readOk fault store loaded legacy hload hne
    simp [loadItems, hload, List.length_eq_zero, hne]

/-- C4 (witness): an empty store with a populated legacy slot imports it and
clears the slot; a second startup with the now non-empty store does not re-import
even though the slot is populated again. -/
theorem migration_imports_once_witness :
    loadItems true true SaveFault.noFault []
        (LegacySlot.array [⟨1, "A", "http://x", "$10", false⟩])
      = ([⟨1, "A", "http://x", "$10", false⟩],
         [⟨1, "A", "http://x", "$10", false⟩], LegacySlot.absent) ∧
    loadItems true true SaveFault.noFault [⟨1, "A", "http://x", "$10", false⟩]
        (LegacySlot.array [⟨7, "B", "http://y", "$20", true⟩])
      = ([⟨1, "A", "http://x", "$10", false⟩],
         [⟨1, "A", "http://x", "$10", false⟩],
         LegacySlot.array [⟨7, "B", "http://y", "$20", true⟩]) :=
  ⟨migration_imports_once.1 true true [] [⟨1, "A", "http://x", "$10", false⟩]
      rfl (by simp) (by simp),
   migration_imports_once.2 true true SaveFault.noFault
      [⟨1, "A", "http://x", "$10", false⟩] [⟨1, "A", "http://x", "$10", false⟩]
      (LegacySlot.array [⟨7, "B", "http://y", "$20", true⟩]) rfl (by simp)⟩

/-- C5: with an empty store, a legacy slot that is absent, malformed or an empty
list leaves the store contents and the slot unchanged on startup, whatever faults
the run encounters; no error propagates (the result is a plain state, every
rejection having been caught inside `loadItems`). -/
theorem migration_noop_on_bad_input :
    ∀ (openOk readOk : Bool) (fault : SaveFault) (legacy : LegacySlot),
      legacy = LegacySlot.absent ∨ legacy = LegacySlot.malformed ∨
        legacy = LegacySlot.array [] →
      loadItems openOk readOk fault [] legacy = ([], [], legacy) := by
  intro openOk readOk fault legacy h
  have hload : getAllItems openOk readOk [] = Except.ok [] ∨
      getAllItems openOk readOk []
        = Except.error "Failed to get items from IndexedDB" := by
    cases openOk <;> cases readOk <;> simp [getAllItems, initDB]
  rcases h with rfl | rfl | rfl <;> rcases hload with hl | hl <;>
    simp [loadItems, hl]

/-- C5 (witness): an empty store and a malformed legacy slot make a fault-free
startup a no-op. -/
theorem migration_noop_on_bad_input_witness :
    loadItems true true SaveFault.noFault [] LegacySlot.malformed
      = ([], [], LegacySlot.malformed) :=
  migration_noop_on_bad_input true true SaveFault.noFault LegacySlot.malformed
    (Or.inr (Or.inl rfl))

/-- C6: deleting an id that no stored record carries succeeds (the promise
resolves) and leaves the store contents unchanged. -/
theorem deleteItem_absent_key_noop :
    ∀ (store : List WishlistItem) (id : Int),
      (∀ x ∈ store, x.id ≠ id) →
      deleteItem true true store id = (Except.ok (), store) := by
  intro store id h
  have hfil : store.filter (fun x => !(x.id == id)) = store :=
    List.filter_eq_self.mpr (fun x hx => by simp [h x hx])
  simp [deleteItem, initDB, hfil]

/-- C6 (witness): deleting id 2 from a store holding only id 1 resolves and
changes nothing. -/
theorem deleteItem_absent_key_noop_witness :
    deleteItem true true [⟨1, "A", "http://x", "$10", false⟩] 2
      = (Except.ok (), [⟨1, "A", "http://x", "$10", false⟩]) :=
  deleteItem_absent_key_noop [⟨1, "A", "http://x", "$10", false⟩] 2 (by decide)

/-- C7: the delete handler removes every item with the given id from the
in-memory list whether the persistence delete succeeded or failed; the handler
itself never propagates an error (it is total, both outcomes of `deleteItem`
being handled). -/
theorem handleDeleteItem_optimistic :
    ∀ (openOk delOk : Bool) (items store : List WishlistItem) (id : Int),
      (handleDeleteItem openOk delOk items store id).1
          = items.filter (fun x => !(x.id == id)) ∧
      ∀ it, it ∈ (handleDeleteItem openOk delOk items store id).1 ↔
          it ∈ items ∧ it.id ≠ id := by
  intro openOk delOk items store id
  have h1 : (handleDeleteItem openOk delOk items store id).1
      = items.filter (fun x => !(x.id == id)) := by
    cases hd : deleteItem openOk delOk store id with
    | mk r s' => cases r <;> simp [handleDeleteItem, hd]
  refine ⟨h1, fun it => ?_⟩
  rw [h1, List.mem_filter]
  simp

/-- C8: `calculateTotal` sums, over exactly the items with `bought = false`, the
value obtained by stripping every character other than digits and the dot from
the price string and parsing the result (an unparseable price contributes 0,
`priceValue` mapping the `NaN` parse to 0 by definition); in the concrete
scenario with items id 1000 (price `₹1,299`, not bought) and id 1001 (price
`₹2,500`, bought) the total is 1299. -/
theorem calculateTotal_unpurchased :
    (∀ items : List WishlistItem,
      calculateTotal items
        = ((items.filter (fun item => item.bought = false)).map
            (fun item => priceValue item.price)).sum) ∧
    calculateTotal
        [⟨1000, "Headphones", "http://shop", "₹1,299", false⟩,
         ⟨1001, "Laptop", "http://shop2", "₹2,500", true⟩]
      = 1299 := by
  constructor
  · intro items
    unfold calculateTotal
    rw [foldl_add_priceValue, zero_add]
    have hfil : items.filter (fun item => !item.bought)
        = items.filter (fun item => decide (item.bought = false)) := by
      apply List.filter_congr
      intro x _
      cases hb : x.bought <;> simp [hb]
    rw [hfil]
  · have h0 : calculateTotal
        [⟨1000, "Headphones", "http://shop", "₹1,299", false⟩,
         ⟨1001, "Laptop", "http://shop2", "₹2,500", true⟩]
        = (0 : Rat) + priceValue "₹1,299" := rfl
    have h1 : (stripNonNumeric "₹1,299").toList = ['1', '2', '9', '9'] := by
      decide
    have h2 : priceValue "₹1,299" = ((1299 : Nat) : Rat) := by
      unfold priceValue
      rw [h1]
      rfl
    rw [h0, h2]
    norm_num

/-- C9: with non-blank edit data, the edit handler is a frame-respecting map: the
result has the same length, every item keeps its `id` and `bought`, an item whose
id matches gets the trimmed `name`/`link`/`price` from the edit data, and every
other item is exactly unchanged. -/
theorem handleSaveEdit_frame :
    ∀ (ed : FormData) (id : Int) (items : List WishlistItem),
      trimChars ed.name ≠ "" → trimChars ed.link ≠ "" → trimChars ed.price ≠ "" →
      (handleSaveEdit ed id items).length = items.length ∧
      List.Forall₂ (fun old nw =>
          nw.id = old.id ∧ nw.bought = old.bought ∧
          (old.id = id → nw.name = trimChars ed.name ∧
            nw.link = trimChars ed.link ∧ nw.price = trimChars ed.price) ∧
          (old.id ≠ id → nw = old))
        items (handleSaveEdit ed id items) := by
  intro ed id items h1 h2 h3
  have hdef : handleSaveEdit ed id items = items.map (fun item =>
      if item.id == id then
        ⟨item.id, trimChars ed.name, trimChars ed.link, trimChars ed.price,
          item.bought⟩
      else item) := by
    unfold handleSaveEdit
    rw [if_pos ⟨h1, h2, h3⟩]
  rw [hdef]
  refine ⟨by simp, ?_⟩
  rw [List.forall₂_map_right_iff, List.forall₂_same]
  intro x _
  by_cases hid : x.id = id
  · rw [if_pos (beq_iff_eq.mpr hid)]
    exact ⟨rfl, rfl, fun _ => ⟨rfl, rfl, rfl⟩, fun hne => absurd hid hne⟩
  · rw [if_neg (fun hc => hid (beq_iff_eq.mp hc))]
    exact ⟨rfl, rfl, fun hc => absurd hc hid, fun _ => rfl⟩

/-- C9 (witness): editing id 1 in a two-item list rewrites exactly the text
fields of item 1 and leaves item 2 alone. -/
theorem handleSaveEdit_frame_witness :
    (handleSaveEdit ⟨"N", "http://n", "₹9"⟩ 1
        [⟨1, "a", "http://a", "₹1", false⟩,
         ⟨2, "b", "http://b", "₹2", true⟩]).length
      = ([⟨1, "a", "http://a", "₹1", false⟩,
          ⟨2, "b", "http://b", "₹2", true⟩] : List WishlistItem).length ∧
    List.Forall₂ (fun old nw =>
        nw.id = old.id ∧ nw.bought = old.bought ∧
        (old.id = 1 → nw.name = trimChars "N" ∧
          nw.link = trimChars "http://n" ∧ nw.price = trimChars "₹9") ∧
        (old.id ≠ 1 → nw = old))
      [⟨1, "a", "http://a", "₹1", false⟩, ⟨2, "b", "http://b", "₹2", true⟩]
      (handleSaveEdit ⟨"N", "http://n", "₹9"⟩ 1
        [⟨1, "a", "http://a", "₹1", false⟩, ⟨2, "b", "http://b", "₹2", true⟩]) :=
  handleSaveEdit_frame ⟨"N", "http://n", "₹9"⟩ 1
    [⟨1, "a", "http://a", "₹1", false⟩, ⟨2, "b", "http://b", "₹2", true⟩]
    (by decide) (by decide) (by decide)

/-- C10: the add handler is a no-op on the in-memory list when any field trims to
empty, and otherwise appends exactly one new item carrying the trimmed fields and
`bought = false`, keeping all existing items. -/
theorem handleAddItem_cases :
    ∀ (now : Int) (form : FormData) (items : List WishlistItem),
      ((trimChars form.name = "" ∨ trimChars form.link = "" ∨
          trimChars form.price = "") →
        (handleAddItem now form items).1 = items) ∧
      (trimChars form.name ≠ "" → trimChars form.link ≠ "" →
        trimChars form.price ≠ "" →
        (handleAddItem now form items).1
          = items ++ [⟨now, trimChars form.name, trimChars form.link,
              trimChars form.price, false⟩]) := by
  intro now form items
  constructor
  · intro h
    have hcond : ¬(trimChars form.name ≠ "" ∧ trimChars form.link ≠ "" ∧
        trimChars form.price ≠ "") := by
      rcases h with h | h | h <;> simp [h]
    unfold handleAddItem
    rw [if_neg hcond]
  · intro h1 h2 h3
    unfold handleAddItem
    rw [if_pos ⟨h1, h2, h3⟩]

/-- C10 (witness): a form whose name trims to empty adds nothing; a filled form
appends exactly the new trimmed item. -/
theorem handleAddItem_cases_witness :
    (handleAddItem 5 ⟨"  ", "http://l", "₹1"⟩
        [⟨1, "a", "http://a", "₹1", false⟩]).1
      = [⟨1, "a", "http://a", "₹1", false⟩] ∧
    (handleAddItem 5 ⟨" n ", "http://l", "₹1"⟩
        [⟨1, "a", "http://a", "₹1", false⟩]).1
      = [⟨1, "a", "http://a", "₹1", false⟩] ++ [⟨5, trimChars " n ",
          trimChars "http://l", trimChars "₹1", false⟩] :=
  ⟨(handleAddItem_cases 5 ⟨"  ", "http://l", "₹1"⟩
      [⟨1, "a", "http://a", "₹1", false⟩]).1 (Or.inl (by decide)),
   (handleAddItem_cases 5 ⟨" n ", "http://l", "₹1"⟩
      [⟨1, "a", "http://a", "₹1", false⟩]).2 (by decide) (by decide) (by decide)⟩

end WishlistApp
